import Mathlib

/-!
Verification development for the cluedoGenAI murder-mystery engine
(`app.py`).  The Python source is shallowly embedded: every function below
mirrors the control flow of the function of the same name in `app.py`.
Python strings are `String`/`List Char`, JSON values are the inductive
`JValue`, `json.loads` is the strict recursive-descent parser `jsonLoads`,
fallible paths return `Option`/`Except`.

Model scope notes (documented once here):
* JSON numbers are modelled as integers; inputs containing fractional or
  exponent literals make the modelled `jsonLoads` fail where CPython would
  return a float.  No claim exercises such inputs.
* Python `str.strip`/`str.split` whitespace is modelled as the six ASCII
  whitespace characters.
* `html.unescape` is modelled on the common named entities; on strings
  without an ampersand (all strings the claims touch) both are the identity.
* Python `==` on JSON values is modelled structurally plus the top-level
  bool/int coercion (True == 1); nested coercion and dict-order-insensitive
  equality are out of scope of every claim.
-/

namespace Cluedo

/-! ### Python-style string primitives -/

def isWs (c : Char) : Bool :=
  c = ' ' || c = '\t' || c = '\n' || c = '\r' || c = '\x0b' || c = '\x0c'

/-- Python `str.strip()` on a list of characters. -/
def pyStripL (l : List Char) : List Char :=
  ((l.dropWhile isWs).reverse.dropWhile isWs).reverse

/-- Python `str.strip()`. -/
def pyStrip (s : String) : String :=
  String.mk (pyStripL s.toList)

/-- Python `needle in hay` on strings (substring test). -/
def containsSub (needle hay : String) : Bool :=
  decide (needle.toList <:+: hay.toList)

def startsWithL (p l : List Char) : Bool :=
  p.isPrefixOf l

/-- Split on every newline character. -/
def splitOnNl : List Char → List (List Char)
  | [] => [[]]
  | c :: r =>
    if c = '\n' then [] :: splitOnNl r
    else
      match splitOnNl r with
      | [] => [[c]]
      | x :: xs => (c :: x) :: xs

/-- Python `str.splitlines()` (newline-only model): a trailing newline does
not produce a trailing empty line, and the empty string has no lines. -/
def pySplitlines (l : List Char) : List (List Char) :=
  if l.isEmpty then []
  else if l.getLast? = some '\n' then (splitOnNl l).dropLast
  else splitOnNl l

/-- Python `"\n".join(...)`. -/
def joinNl : List (List Char) → List Char
  | [] => []
  | [x] => x
  | x :: xs => x ++ '\n' :: joinNl xs

/-- Python `str.split()` (split on whitespace runs, dropping empties). -/
def wordsAux : List Char → List Char → List (List Char)
  | [], acc => if acc.isEmpty then [] else [acc.reverse]
  | c :: r, acc =>
    if isWs c then
      if acc.isEmpty then wordsAux r [] else acc.reverse :: wordsAux r []
    else wordsAux r (c :: acc)

def wordsOf (l : List Char) : List (List Char) :=
  wordsAux l []

def lowerL (l : List Char) : List Char :=
  l.map Char.toLower

def firstIdxOf (c : Char) : List Char → Option Nat
  | [] => none
  | x :: r => if x = c then some 0 else (firstIdxOf c r).map (· + 1)

/-- Python `str.rfind` (as an `Option`): index of the last occurrence. -/
def lastIdxOf (c : Char) (l : List Char) : Option Nat :=
  (firstIdxOf c l.reverse).map (fun i => l.length - 1 - i)

/-- Python slice `l[a:b]`. -/
def sliceL (a b : Nat) (l : List Char) : List Char :=
  (l.take b).drop a

def backquote : Char := Char.ofNat 96

/-- The string made of three backquotes, the code-fence marker. -/
def fence3 : List Char := [backquote, backquote, backquote]

/-! ### JSON values and a strict `json.loads` model -/

mutual

inductive JValue where
  | null : JValue
  | bool (b : Bool) : JValue
  | num (n : Int) : JValue
  | str (s : String) : JValue
  | arr (xs : JArr) : JValue
  | obj (kvs : JObj) : JValue
deriving DecidableEq

inductive JArr where
  | nil : JArr
  | cons (v : JValue) (r : JArr) : JArr
deriving DecidableEq

inductive JObj where
  | nil : JObj
  | cons (k : String) (v : JValue) (r : JObj) : JObj
deriving DecidableEq

end

def JArr.toList : JArr → List JValue
  | .nil => []
  | .cons v r => v :: r.toList

def JArr.ofList : List JValue → JArr
  | [] => .nil
  | v :: r => .cons v (JArr.ofList r)

def JObj.toList : JObj → List (String × JValue)
  | .nil => []
  | .cons k v r => (k, v) :: r.toList

def JObj.ofList : List (String × JValue) → JObj
  | [] => .nil
  | (k, v) :: r => .cons k v (JObj.ofList r)

/-- Python truthiness of a JSON-decoded value. -/
def jtruthy : JValue → Bool
  | .null => false
  | .bool b => b
  | .num n => n ≠ 0
  | .str s => s ≠ ""
  | .arr xs => !xs.toList.isEmpty
  | .obj kvs => !kvs.toList.isEmpty

/-- Python `==` between JSON-decoded values: structural equality plus the
top-level bool/int coercion. -/
def pyEq (a b : JValue) : Bool :=
  match a, b with
  | .bool x, .num n => (if x then (1 : Int) else 0) = n
  | .num n, .bool x => n = (if x then (1 : Int) else 0)
  | _, _ => a = b

/-- Python `dict.get` where duplicate keys keep the last binding, as
`json.loads` does. -/
def objGetLast (kvs : JObj) (k : String) : Option JValue :=
  ((kvs.toList.reverse).find? (fun p => p.1 = k)).map (fun p => p.2)

def hasKeyPy (kvs : JObj) (k : String) : Bool :=
  kvs.toList.any (fun p => p.1 = k)

/-- Python `x or y` on JSON-decoded values. -/
def orPy (a b : JValue) : JValue :=
  if jtruthy a then a else b

def hexVal (c : Char) : Option Nat :=
  if '0' ≤ c ∧ c ≤ '9' then some (c.toNat - 48)
  else if 'a' ≤ c ∧ c ≤ 'f' then some (c.toNat - 87)
  else if 'A' ≤ c ∧ c ≤ 'F' then some (c.toNat - 55)
  else none

def escChar (e : Char) : Option Char :=
  if e = '"' then some '"'
  else if e = '\\' then some '\\'
  else if e = '/' then some '/'
  else if e = 'n' then some '\n'
  else if e = 't' then some '\t'
  else if e = 'r' then some '\r'
  else if e = 'b' then some '\x08'
  else if e = 'f' then some '\x0c'
  else none

/-- Parse the body of a JSON string literal (after the opening quote),
returning the decoded characters and the remainder after the closing
quote. -/
def parseStringBody : List Char → Option (List Char × List Char)
  | [] => none
  | c :: r =>
    if c = '"' then some ([], r)
    else if c = '\\' then
      match r with
      | [] => none
      | e :: r2 =>
        if e = 'u' then
          match r2 with
          | a :: b :: c2 :: d :: r3 =>
            match hexVal a, hexVal b, hexVal c2, hexVal d with
            | some ha, some hb, some hc, some hd =>
              (parseStringBody r3).map
                (fun p => (Char.ofNat (((ha * 16 + hb) * 16 + hc) * 16 + hd) :: p.1, p.2))
            | _, _, _, _ => none
          | _ => none
        else
          match escChar e with
          | some d => (parseStringBody r2).map (fun p => (d :: p.1, p.2))
          | none => none
    else if c.toNat < 32 then none
    else (parseStringBody r).map (fun p => (c :: p.1, p.2))

def natOfDigits (ds : List Char) : Nat :=
  ds.foldl (fun a c => a * 10 + (c.toNat - 48)) 0

/-- Parse a JSON integer literal (fractional/exponent forms are outside the
model and fail). -/
def parseNumber (l : List Char) : Option (JValue × List Char) :=
  let p := match l with
    | c :: r => if c = '-' then (true, r) else (false, l)
    | [] => (false, l)
  let ds := p.2.takeWhile Char.isDigit
  let rest := p.2.dropWhile Char.isDigit
  if ds.isEmpty then none
  else
    match rest with
    | c :: _ =>
      if c = '.' || c = 'e' || c = 'E' then none
      else some (.num (if p.1 then -(Int.ofNat (natOfDigits ds)) else Int.ofNat (natOfDigits ds)), rest)
    | [] => some (.num (if p.1 then -(Int.ofNat (natOfDigits ds)) else Int.ofNat (natOfDigits ds)), [])

mutual

def parseVal : Nat → List Char → Option (JValue × List Char)
  | 0, _ => none
  | f + 1, l =>
    match l.dropWhile isWs with
    | [] => none
    | c :: r =>
      if c = '"' then
        (parseStringBody r).map (fun p => (.str (String.mk p.1), p.2))
      else if c = '[' then
        match r.dropWhile isWs with
        | ']' :: r2 => some (.arr .nil, r2)
        | _ => (parseElems f r).map (fun p => (.arr (JArr.ofList p.1), p.2))
      else if c = '{' then
        match r.dropWhile isWs with
        | '}' :: r2 => some (.obj .nil, r2)
        | _ => (parseMembers f r).map (fun p => (.obj (JObj.ofList p.1), p.2))
      else if c = 't' then
        if startsWithL ("rue".toList) r then some (.bool true, r.drop 3) else none
      else if c = 'f' then
        if startsWithL ("alse".toList) r then some (.bool false, r.drop 4) else none
      else if c = 'n' then
        if startsWithL ("ull".toList) r then some (.null, r.drop 3) else none
      else if c = '-' || c.isDigit then parseNumber (c :: r)
      else none

def parseElems : Nat → List Char → Option (List JValue × List Char)
  | 0, _ => none
  | f + 1, l => do
    let (v, rest) ← parseVal f l
    match rest.dropWhile isWs with
    | ',' :: r2 => (parseElems f r2).map (fun p => (v :: p.1, p.2))
    | ']' :: r2 => some ([v], r2)
    | _ => none

def parseMembers : Nat → List Char → Option (List (String × JValue) × List Char)
  | 0, _ => none
  | f + 1, l =>
    match l.dropWhile isWs with
    | c :: r =>
      if c = '"' then do
        let (k, r2) ← parseStringBody r
        match r2.dropWhile isWs with
        | ':' :: r4 => do
          let (v, r5) ← parseVal f r4
          match r5.dropWhile isWs with
          | ',' :: r7 => (parseMembers f r7).map (fun p => ((String.mk k, v) :: p.1, p.2))
          | '}' :: r7 => some ([(String.mk k, v)], r7)
          | _ => none
        | _ => none
      else none
    | [] => none

end

/-- Model of `json.loads`: parse one value, allow surrounding whitespace
only. -/
def jsonLoadsL (l : List Char) : Option JValue :=
  match parseVal (2 * l.length + 2) l with
  | some (v, rest) => if (rest.dropWhile isWs).isEmpty then some v else none
  | none => none

def jsonLoads (s : String) : Option JValue :=
  jsonLoadsL s.toList

/-! ### `_extract_json` (app.py lines 49-81) -/

/-- Step 2 of `_extract_json`: locate the first open brace and the last
close brace and try to parse that slice. -/
def braceHeur (l : List Char) : Option JValue :=
  match firstIdxOf '{' l, lastIdxOf '}' l with
  | some s, some e => if s < e then jsonLoadsL (sliceL s (e + 1) l) else none
  | _, _ => none

/-- Faithful port of `_extract_json`: `None`/empty input yields `none`; a
leading code fence is stripped (first and last fence lines) and the
remainder parsed; on failure or for unfenced text, the first-brace /
last-brace slice is parsed; any remaining failure yields `none`. -/
def _extract_json : Option String → Option JValue
  | none => none
  | some t =>
    if t = "" then none
    else
      let tl := pyStripL t.toList
      if startsWithL fence3 tl then
        let lines := pySplitlines tl
        let lines1 :=
          match lines with
          | l0 :: rest => if startsWithL fence3 l0 then rest else lines
          | [] => []
        let lines2 :=
          match lines1.getLast? with
          | some last => if startsWithL fence3 last then lines1.dropLast else lines1
          | none => lines1
        let candidate := pyStripL (joinNl lines2)
        match jsonLoadsL candidate with
        | some v => some v
        | none => braceHeur candidate
      else braceHeur tl

/-! ### Case Normalizer (app.py lines 110-329)

The scene blueprint is modelled as a well-typed record (absent fields are
the `get` defaults used by the source); the characters structure is kept
as a raw `JValue`, since every branch of the validation logic depends on
its dynamic shape.  Python exceptions are the error channel of `Except
GenErr`: `runtime` is the `RuntimeError` the source raises deliberately
(a "generation error"), the other constructors are the interpreter errors
(`TypeError`/`AttributeError`/`KeyError`) that ill-shaped JSON can cause.
-/

inductive GenErr where
  | runtime (msg : String) : GenErr
  | typeError : GenErr
  | attrError : GenErr
  | keyError : GenErr
deriving DecidableEq

def isRuntimeErr {α : Type} : Except GenErr α → Bool
  | .error (.runtime _) => true
  | _ => false

def errOf {α : Type} : Except GenErr α → Option GenErr
  | .error e => some e
  | .ok _ => none

def apos : Char := Char.ofNat 39

def quoted (s : String) : String :=
  String.mk (apos :: s.toList ++ [apos])

def msg_no_suspects : String :=
  "Crew did not return a valid " ++ quoted ("characters") ++ " JSON with " ++ quoted ("suspects") ++ "."

def msg_bad_list : String :=
  "Characters JSON has an empty or invalid " ++ quoted ("suspects") ++ " list."

def msg_no_guilty : String :=
  "Could not determine guilty_name from characters JSON."

structure NSuspect where
  name : JValue
  role : JValue
  personality : JValue
  secret : JValue
  guilty : Bool
deriving DecidableEq

structure BaseCase where
  victim : String
  time : String
  place : String
  cause : String
  context : String
deriving DecidableEq

structure Case where
  victim : String
  time : String
  place : String
  cause : String
  context : String
  suspects : List NSuspect
  guilty_name : JValue
deriving DecidableEq

/-- The `base_case` defaults of `generate_case_with_crew`. -/
def base_case0 : BaseCase where
  victim := "Unknown Victim"
  time := "Sometime past midnight"
  place := "An almost empty tech office"
  cause := "Suspicious accident with smart equipment"
  context := "A storm hits the city. Backup power keeps the systems barely alive. Only a handful of employees remain inside for a late-night push before a major demo."

/-- Well-typed scene blueprint: the fields the source reads, with the
source defaults for absent values already applied. -/
structure SceneBlueprint where
  present_characters : List String
  summary : String
  location : Option String
  visible_clues : List String
  hidden_tension : String

def isAsciiAlpha (c : Char) : Bool :=
  ('A' ≤ c && c ≤ 'Z') || ('a' ≤ c && c ≤ 'z')

/-- One `[A-Z][A-Za-z]+` word of the victim regex. -/
def matchNameWord : List Char → Option (List Char × List Char)
  | [] => none
  | c :: r =>
    if c.isUpper then
      let a := r.takeWhile isAsciiAlpha
      let rest := r.dropWhile isAsciiAlpha
      if a.isEmpty then none else some (c :: a, rest)
    else none

/-- The greedy `(?: [A-Z][A-Za-z]+)*` tail of the victim regex. -/
def matchNameRest : Nat → List Char → List Char → List Char × List Char
  | 0, acc, l => (acc, l)
  | _, acc, [] => (acc, [])
  | f + 1, acc, c :: r =>
    if c = ' ' then
      match matchNameWord r with
      | some (w, rest) => matchNameRest f (acc ++ ' ' :: w) rest
      | none => (acc, c :: r)
    else (acc, c :: r)

def bodyOfLit : List Char := ("body of ").toList

/-- Model of `re.search(r"body of ([A-Z][A-Za-z]+(?: [A-Z][A-Za-z]+)*)", s)`:
scan left to right for the literal prefix followed by a capitalized name,
returning the captured name. -/
def searchBodyOf : List Char → Option (List Char)
  | [] => none
  | c :: r =>
    if startsWithL bodyOfLit (c :: r) then
      match matchNameWord ((c :: r).drop bodyOfLit.length) with
      | some (w, rest) => some ((matchNameRest rest.length w rest).1)
      | none => searchBodyOf r
    else searchBodyOf r

/-- Scene-derived `base_case` adjustment (app.py lines 221-275): every
derivation miss silently keeps the previous value. -/
def adjust_scene (scene : Option SceneBlueprint) (b0 : BaseCase) : BaseCase :=
  match scene with
  | none => b0
  | some sb =>
    let summary := sb.summary
    let victim1 : String :=
      match sb.present_characters.find? (fun ch => containsSub ("Victim") ch || containsSub ("victim") ch) with
      | some ch => String.mk (pyStripL (ch.toList.takeWhile (fun c => c ≠ '(')))
      | none => ""
    let victim2 : String :=
      if victim1 = "" ∧ summary ≠ "" then
        match searchBodyOf summary.toList with
        | some nm => String.mk nm
        | none => ""
      else victim1
    let b1 := if victim2 ≠ "" then { b0 with victim := victim2 } else b0
    let b2 :=
      match sb.location with
      | some loc => if loc ≠ "" then { b1 with place := loc } else b1
      | none => b1
    let b3 :=
      if summary ≠ "" then
        let first_sentence := String.mk (pyStripL (summary.toList.takeWhile (fun c => c ≠ '.')))
        if first_sentence ≠ "" then
          let time_phrase := String.mk (pyStripL (first_sentence.toList.takeWhile (fun c => c ≠ ',')))
          if time_phrase ≠ "" then { b2 with time := time_phrase } else b2
        else b2
      else b2
    let cause : String :=
      if containsSub ("electrocut") (String.mk (lowerL summary.toList)) then
        "Electrocution involving the Nexus-Smart-Hub prototype"
      else
        let clues_text := String.mk (List.intercalate [' '] (sb.visible_clues.map String.toList))
        if containsSub ("electrocut") (String.mk (lowerL clues_text.toList)) then
          "Electrocution during the server room incident"
        else ""
    let b4 := if cause ≠ "" then { b3 with cause := cause } else b3
    let ht := sb.hidden_tension
    if summary ≠ "" ∧ ht ≠ "" then { b4 with context := summary ++ " " ++ ht }
    else if summary ≠ "" then { b4 with context := summary }
    else if ht ≠ "" then { b4 with context := ht }
    else b4

/-- The `killer_id` loop of the guilty-name resolution (app.py 290-295):
take the name of the first suspect whose `id` equals `killer_id`, keeping
the previous candidate if no suspect matches; a non-dict suspect raises. -/
def scanKiller : List JValue → JValue → JValue → Except GenErr JValue
  | [], _, g => .ok g
  | s :: ss, killer, g =>
    match s with
    | .obj skvs =>
      if pyEq ((objGetLast skvs ("id")).getD .null) killer then
        .ok ((objGetLast skvs ("name")).getD .null)
      else scanKiller ss killer g
    | _ => .error .attrError

/-- The `guilty is True` fallback loop (app.py 297-302). -/
def scanFlag : List JValue → JValue → Except GenErr JValue
  | [], g => .ok g
  | s :: ss, g =>
    match s with
    | .obj skvs =>
      if (objGetLast skvs ("guilty")).getD .null = JValue.bool true then
        .ok ((objGetLast skvs ("name")).getD .null)
      else scanFlag ss g
    | _ => .error .attrError

/-- Guilty-name resolution (app.py 287-302): explicit `guilty_name`, else
the suspect matching a truthy `killer_id`, else the suspect flagged
`guilty = True`.  The result may still be falsy, which the caller turns
into the fatal error. -/
def resolve_guilty_name (kvs : JObj) (suspects : List JValue) : Except GenErr JValue :=
  let g0 := (objGetLast kvs ("guilty_name")).getD .null
  let afterKiller : Except GenErr JValue :=
    if jtruthy g0 then .ok g0
    else
      let killer := (objGetLast kvs ("killer_id")).getD .null
      if jtruthy killer then scanKiller suspects killer g0 else .ok g0
  match afterKiller with
  | .error e => .error e
  | .ok g1 => if jtruthy g1 then .ok g1 else scanFlag suspects g1

/-- The normalization loop (app.py 308-322).  Note the deliberate port of
the Python comparison `s.get("id") == characters_json.get("killer_id")`:
when both fields are absent the comparison is `None == None`, hence true. -/
def buildSuspects (kvs : JObj) (guilty_name : JValue) : List JValue → Except GenErr (List NSuspect)
  | [] => .ok []
  | s :: ss =>
    match s with
    | .obj skvs =>
      let killer := (objGetLast kvs ("killer_id")).getD .null
      let guilty :=
        jtruthy ((objGetLast skvs ("guilty")).getD (.bool false))
        || pyEq ((objGetLast skvs ("name")).getD .null) guilty_name
        || pyEq ((objGetLast skvs ("id")).getD .null) killer
      let ns : NSuspect :=
        { name := (objGetLast skvs ("name")).getD (.str ("Unknown Suspect"))
          role := (objGetLast skvs ("role")).getD (.str (""))
          personality := (objGetLast skvs ("personality")).getD (.str (""))
          secret := orPy ((objGetLast skvs ("secret")).getD .null) ((objGetLast skvs ("secret_motivation")).getD (.str ("")))
          guilty := guilty }
      (buildSuspects kvs guilty_name ss).map (fun l => ns :: l)
    | _ => .error .attrError

/-- Validation and normalization of the characters structure
(app.py 280-327). -/
def normalizeCharacters (characters_json : Option JValue) : Except GenErr (List NSuspect × JValue) :=
  match characters_json with
  | none => .error (.runtime msg_no_suspects)
  | some v =>
    if !jtruthy v then .error (.runtime msg_no_suspects)
    else
      match v with
      | .obj kvs =>
        match objGetLast kvs ("suspects") with
        | none => .error (.runtime msg_no_suspects)
        | some sv =>
          match sv with
          | .arr a =>
            match a.toList with
            | [] => .error (.runtime msg_bad_list)
            | s :: ss =>
              match resolve_guilty_name kvs (s :: ss) with
              | .error e => .error e
              | .ok g =>
                if jtruthy g then
                  (buildSuspects kvs g (s :: ss)).map (fun l => (l, g))
                else .error (.runtime msg_no_guilty)
          | _ => .error (.runtime msg_bad_list)
      | .arr a =>
        if a.toList.any (fun el => pyEq el (.str ("suspects"))) then .error .typeError
        else .error (.runtime msg_no_suspects)
      | .str s =>
        if containsSub ("suspects") s then .error .typeError
        else .error (.runtime msg_no_suspects)
      | _ => .error .typeError

/-- The Case Normalizer end to end: scene adjustment (lines 221-275)
followed by suspect validation/normalization (lines 280-329). -/
def generate_case_with_crew (scene : Option SceneBlueprint) (characters_json : Option JValue) : Except GenErr Case :=
  let b := adjust_scene scene base_case0
  match normalizeCharacters characters_json with
  | .error e => .error e
  | .ok p =>
    .ok { victim := b.victim, time := b.time, place := b.place, cause := b.cause,
          context := b.context, suspects := p.1, guilty_name := p.2 }

/-! ### Claim-side predicate for C4, written from the claim text -/

/-- Claim-side rendering of strategy 2: the first suspect whose id matches
the killer id, yielding that suspect's name field. -/
def claimScanKiller : List JValue → JValue → Except Unit (Option JValue)
  | [], _ => .ok none
  | s :: ss, killer =>
    match s with
    | .obj skvs =>
      if pyEq ((objGetLast skvs ("id")).getD .null) killer then
        .ok (some ((objGetLast skvs ("name")).getD .null))
      else claimScanKiller ss killer
    | _ => .error ()

/-- Claim-side rendering of strategy 3: the first suspect flagged
`guilty = true`, yielding that suspect's name field. -/
def claimScanFlag : List JValue → Except Unit (Option JValue)
  | [] => .ok none
  | s :: ss =>
    match s with
    | .obj skvs =>
      if (objGetLast skvs ("guilty")).getD .null = JValue.bool true then
        .ok (some ((objGetLast skvs ("name")).getD .null))
      else claimScanFlag ss
    | _ => .error ()

/-- Claim-side guilty resolution, tried in the claim's order: an explicit
`guilty_name` field; a suspect whose id matches the `killer_id` field; a
suspect flagged `guilty = true`. -/
def claimResolve (kvs : JObj) (suspects : List JValue) : Except Unit JValue :=
  let explicit := (objGetLast kvs ("guilty_name")).getD .null
  if jtruthy explicit then .ok explicit
  else
    let killer := (objGetLast kvs ("killer_id")).getD .null
    let fromKiller : Except Unit (Option JValue) :=
      if jtruthy killer then claimScanKiller suspects killer else .ok none
    match fromKiller with
    | .error e => .error e
    | .ok r =>
      let g1 := match r with | some n => n | none => explicit
      if jtruthy g1 then .ok g1
      else
        match claimScanFlag suspects with
        | .error e => .error e
        | .ok (some n) => .ok n
        | .ok none => .ok g1

/-- Claim-side characterization of the fatal inputs: suspects missing, not
a list, or empty, or no strategy resolves a truthy guilty identity.  A
structure whose dynamic shape makes the source trip on an interpreter
error (not a generation error) is not counted. -/
def charsFatal (cj : Option JValue) : Bool :=
  match cj with
  | none => true
  | some v =>
    if !jtruthy v then true
    else
      match v with
      | .obj kvs =>
        match objGetLast kvs ("suspects") with
        | none => true
        | some (.arr a) =>
          match a.toList with
          | [] => true
          | s :: ss =>
            match claimResolve kvs (s :: ss) with
            | .ok g => !jtruthy g
            | .error _ => false
        | some _ => true
      | .arr a => !(a.toList.any (fun el => pyEq el (.str ("suspects"))))
      | .str s => !(containsSub ("suspects") s)
      | _ => false

instance {ε α : Type} [DecidableEq ε] [DecidableEq α] : DecidableEq (Except ε α) :=
  fun a b =>
    match a, b with
    | .ok x, .ok y =>
      match decEq x y with
      | isTrue h => isTrue (by rw [h])
      | isFalse h => isFalse (fun hh => h (by cases hh; rfl))
    | .error x, .error y =>
      match decEq x y with
      | isTrue h => isTrue (by rw [h])
      | isFalse h => isFalse (fun hh => h (by cases hh; rfl))
    | .ok _, .error _ => isFalse (fun hh => Except.noConfusion hh)
    | .error _, .ok _ => isFalse (fun hh => Except.noConfusion hh)

/-! ### Post-processing of answers (app.py 83-91 and 737-739)

`handle_question_submit` pipes every answer through `html.unescape` and
`_strip_html_tags`.
-/

def entAmp : List Char := ("&amp;").toList
def entLt : List Char := ("&lt;").toList
def entGt : List Char := ("&gt;").toList
def entQuot : List Char := ("&quot;").toList
def entNum39 : List Char := ("&#39;").toList
def entApos : List Char := ("&apos;").toList

def matchEntity (l : List Char) : Option (Char × List Char) :=
  if startsWithL entAmp l then some ('&', l.drop entAmp.length)
  else if startsWithL entLt l then some ('<', l.drop entLt.length)
  else if startsWithL entGt l then some ('>', l.drop entGt.length)
  else if startsWithL entQuot l then some ('"', l.drop entQuot.length)
  else if startsWithL entNum39 l then some (apos, l.drop entNum39.length)
  else if startsWithL entApos l then some (apos, l.drop entApos.length)
  else none

/-- Model of `html.unescape` restricted to the common named entities; on
text without an ampersand it is the identity, like the original. -/
def unescapeAux : Nat → List Char → List Char
  | 0, l => l
  | _, [] => []
  | f + 1, c :: r =>
    if c = '&' then
      match matchEntity (c :: r) with
      | some (d, rest) => d :: unescapeAux f rest
      | none => c :: unescapeAux f r
    else c :: unescapeAux f r

def pyUnescape (l : List Char) : List Char :=
  unescapeAux l.length l

/-- Skip to the first closing angle after at least one non-closing
character, mirroring the regex `<[^>]+>`. -/
def dropToGt : List Char → Option (List Char)
  | [] => none
  | c :: r => if c = '>' then some r else dropToGt r

def findTagEnd : List Char → Option (List Char)
  | [] => none
  | c :: r => if c = '>' then none else dropToGt r

def removeTagsAux : Nat → List Char → List Char
  | 0, l => l
  | _, [] => []
  | f + 1, c :: r =>
    if c = '<' then
      match findTagEnd r with
      | some rest => ' ' :: removeTagsAux f rest
      | none => '<' :: removeTagsAux f r
    else c :: removeTagsAux f r

/-- Model of `_strip_html_tags` (app.py 83-91): replace `<[^>]+>` matches
by a space, collapse whitespace runs, strip. -/
def _strip_html_tags (l : List Char) : List Char :=
  if l.isEmpty then []
  else pyStripL (List.intercalate [' '] (wordsOf (removeTagsAux l.length l)))

def postprocessAnswer (s : String) : String :=
  String.mk (_strip_html_tags (pyUnescape s.toList))

/-! ### Dialogue Resolver (app.py 332-417)

The external CrewAI call is an oracle parameter of type
`Except String AgentResult`: an `error e` is a raised exception whose
`str(e)` is `e`; an `ok r` is a returned result object.  The prompt
arguments of the source function only feed that opaque call and do not
influence the control flow being verified, so they are not parameters of
the model.  The `try` block covers the whole body, hence the `Except
String` channel threaded through the result processing as well: a raise
anywhere lands in the same fallback classifier.
-/

structure TaskOutput where
  raw : Option String
  output : Option String
  value : Option String
  result : Option String
  content : Option String
  strRepr : String
deriving DecidableEq

def pickAttr : List (Option String) → Option String
  | [] => none
  | some v :: rest => if pyStrip v ≠ "" then some v else pickAttr rest
  | none :: rest => pickAttr rest

/-- Model of `_safe_get_task_raw` (app.py 93-107): first of the attributes
`raw`, `output`, `value`, `result`, `content` holding a non-blank string,
else the non-blank `str()` of the object, else `None`.  A present
non-string attribute behaves like an absent one. -/
def _safe_get_task_raw : Option TaskOutput → Option String
  | none => none
  | some t =>
    match pickAttr [t.raw, t.output, t.value, t.result, t.content] with
    | some v => some v
    | none => if pyStrip t.strRepr ≠ "" then some t.strRepr else none

inductive TasksOut where
  | tlist (ts : List TaskOutput) : TasksOut
  | tdict (entries : List (String × TaskOutput)) : TasksOut
  | tstr (s : String) : TasksOut
deriving DecidableEq

def tasksFalsy : TasksOut → Bool
  | .tlist ts => ts.isEmpty
  | .tdict es => es.isEmpty
  | .tstr s => s = ""

/-- Python `x or y` over the two `getattr` results of line 364. -/
def orFalsyT (a b : Option TasksOut) : Option TasksOut :=
  match a with
  | some x => if tasksFalsy x then b else some x
  | none => b

structure AgentResult where
  tasks_output : Option TasksOut
  raw : Option TasksOut
  strRepr : String
deriving DecidableEq

def lookupLastT (es : List (String × TaskOutput)) (k : String) : Option TaskOutput :=
  ((es.reverse).find? (fun p => p.1 = k)).map (fun p => p.2)

/-- The list-shaped branch of step 1 (app.py 368-377): first task whose
extracted JSON is a dict containing a `spoken_text` key. -/
def firstSpokenCandidate : List TaskOutput → Option JValue
  | [] => none
  | t :: ts =>
    match _safe_get_task_raw (some t) with
    | none => firstSpokenCandidate ts
    | some raw =>
      match _extract_json (some raw) with
      | some (.obj kvs) =>
        if hasKeyPy kvs ("spoken_text") then some (.obj kvs) else firstSpokenCandidate ts
      | _ => firstSpokenCandidate ts

/-- Step 1 of the resolver (app.py 364-384): the `data` value after the
list/dict shape dispatch. -/
def dialogueData (r : AgentResult) : Option JValue :=
  match orFalsyT r.tasks_output r.raw with
  | some (.tlist ts) => firstSpokenCandidate ts
  | some (.tdict es) =>
    match lookupLastT es ("generate_suspect_dialogue") with
    | some t => _extract_json (_safe_get_task_raw (some t))
    | none => none
  | _ => none

/-- The `spoken_text` / `answer` / `text` alias chain (app.py 388-390 and
396-398).  A truthy non-string spoken value raises (`.strip()` on a
non-string), which the enclosing `try` turns into the generic fallback. -/
def spoken_chain (kvs : JObj) : Except String (Option String) :=
  let spoken :=
    orPy ((objGetLast kvs ("spoken_text")).getD .null)
      (orPy ((objGetLast kvs ("answer")).getD .null) ((objGetLast kvs ("text")).getD .null))
  if jtruthy spoken then
    match spoken with
    | .str s => .ok (some (pyStrip s))
    | _ => .error ("object has no attribute strip")
  else .ok none

def spokenOfData : Option JValue → Except String (Option String)
  | some (.obj kvs) => spoken_chain kvs
  | _ => .ok none

def throttled_line : String :=
  "The overhead lights flicker and the network icon turns red. «Systems are throttled… you won’t get more out of me right now,» the suspect says, dodging your question."

def glitch_line : String :=
  "The suspect just stares back at you. Something in the system glitched and they refuse to answer."

/-- The `except` classifier (app.py 406-417). -/
def dialogue_fallback (msg : String) : String :=
  if containsSub ("429") msg || containsSub ("RESOURCE_EXHAUSTED") msg || containsSub ("Quota exceeded") msg then
    throttled_line
  else glitch_line

/-- Step 4 hard truncation (app.py 400-404). -/
def truncate400 (s : String) : String :=
  if s.length > 400 then String.mk (s.toList.take 400) ++ ("...") else s

/-- The `try` body after a successful agent call (app.py 363-404). -/
def call_crew_body (r : AgentResult) : Except String String :=
  match spokenOfData (dialogueData r) with
  | .error e => .error e
  | .ok (some s) => .ok s
  | .ok none =>
    match spokenOfData (_extract_json (some r.strRepr)) with
    | .error e => .error e
    | .ok (some s) => .ok s
    | .ok none => .ok (truncate400 (pyStrip r.strRepr))

/-- Model of `call_crew_for_answer` (app.py 332-417): never raises — every
failure is resolved to one of the two fixed fallback lines. -/
def call_crew_for_answer (agent : Except String AgentResult) : String :=
  match agent with
  | .error e => dialogue_fallback e
  | .ok r =>
    match call_crew_body r with
    | .ok s => s
    | .error e => dialogue_fallback e

/-! ### Game Session state machine (app.py 537-567, 713-754, 758-807)

`st.session_state` is the `GameState` record; the Streamlit UI calls,
the audio triggers and the spinner are presentation effects with no
session-state footprint and are outside the model.  `disabled` is the
`crew_failed` flag passed in by the UI.
-/

structure Turn where
  q : String
  a : String
deriving DecidableEq

structure Outcome where
  won : Bool
  accused : String
  guilty : String
  epilogue : String
deriving DecidableEq

structure GameState where
  remaining_questions : Int
  histories : List (String × List Turn)
  game_over : Bool
  accused : Option String
  outcome : Option Outcome
  guilty_name : String
  suspect_names : List String
  theCase : Option Case
deriving DecidableEq

def lookupHist (hs : List (String × List Turn)) (n : String) : Option (List Turn) :=
  (hs.find? (fun p => p.1 = n)).map (fun p => p.2)

def appendHist (hs : List (String × List Turn)) (n : String) (t : Turn) : List (String × List Turn) :=
  hs.map (fun p => if p.1 = n then (p.1, p.2 ++ [t]) else p)

/-- Model of `handle_question_submit` (app.py 713-754).  The oracle
`agent` stands for the CrewAI dialogue call made inside
`call_crew_for_answer`.  `none` models the `KeyError` of
`st.session_state.histories[suspect_name]` for an unknown suspect (the
UI only passes roster names). -/
def handle_question_submit (agent : Except String AgentResult) (suspect_name question : String)
    (disabled : Bool) (st : GameState) : Option GameState :=
  if pyStrip question = "" then some st
  else if disabled then some st
  else if st.game_over then some st
  else if st.remaining_questions ≤ 0 then some st
  else
    match lookupHist st.histories suspect_name with
    | none => none
    | some _ =>
      some { st with
              remaining_questions := st.remaining_questions - 1,
              histories := appendHist st.histories suspect_name
                { q := pyStrip question, a := postprocessAnswer (call_crew_for_answer agent) } }

/-- Model of `_generate_epilogue` (app.py 758-777): a fixed template keyed
only on `won`, `accused_name` and `guilty_name`; the case argument is
unused, matching the source. -/
def _generate_epilogue (theCase : Option Case) (accused_name : String) (won : Bool) (guilty_name : String) : String :=
  if won then
    ("You lay out the last contradiction, and the room goes quiet.\n\n")
      ++ guilty_name
      ++ (" stops arguing and starts calculating. The storm outside fades, but the weight of the evidence doesn’t. Logs, timelines — all of it lines up in a single, sharp line pointing at them.\n\nSecurity walks them out. The office hums back to life, one monitor at a time.")
  else
    ("You point the finger at ")
      ++ accused_name
      ++ (", and the room tenses. For a moment it almost fits — almost.\n\nBut the loose ends remain. Somewhere in the logs, in the access patterns, in the off-by-one timestamp, ")
      ++ guilty_name
      ++ (" slips away clean.\n\nThe storm passes. The case closes on paper, but not in your head.")

/-- Model of `handle_accusation` (app.py 780-807). -/
def handle_accusation (accused_name : String) (disabled : Bool) (st : GameState) : GameState :=
  if disabled then st
  else if st.game_over then st
  else
    let guilty_name := st.guilty_name
    let won : Bool := accused_name == guilty_name
    let epilogue := _generate_epilogue st.theCase accused_name won guilty_name
    { st with
        accused := some accused_name,
        outcome := some { won := won, accused := accused_name, guilty := guilty_name, epilogue := epilogue },
        game_over := true }

/-! ### Helper lemmas on the session primitives -/

theorem lookupHist_cons (x : String × List Turn) (xs : List (String × List Turn)) (k : String) :
    lookupHist (x :: xs) k = if x.1 = k then some x.2 else lookupHist xs k := by
  unfold lookupHist
  by_cases h : x.1 = k
  · rw [List.find?_cons_of_pos]
    · simp [h]
    · simpa using h
  · rw [List.find?_cons_of_neg]
    · simp [h]
    · simpa using h

theorem appendHist_cons (x : String × List Turn) (xs : List (String × List Turn)) (n : String) (t : Turn) :
    appendHist (x :: xs) n t = (if x.1 = n then (x.1, x.2 ++ [t]) else x) :: appendHist xs n t := rfl

theorem lookupHist_appendHist_self (hs : List (String × List Turn)) (n : String) (t : Turn) :
    lookupHist (appendHist hs n t) n = (lookupHist hs n).map (fun l => l ++ [t]) := by
  induction hs with
  | nil => rfl
  | cons p rest ih =>
    rw [appendHist_cons, lookupHist_cons, lookupHist_cons]
    by_cases hp : p.1 = n
    · simp [hp]
    · simp [hp, ih]

theorem lookupHist_appendHist_other (hs : List (String × List Turn)) (n other : String) (t : Turn)
    (hne : other ≠ n) :
    lookupHist (appendHist hs n t) other = lookupHist hs other := by
  induction hs with
  | nil => rfl
  | cons p rest ih =>
    rw [appendHist_cons, lookupHist_cons, lookupHist_cons]
    have hno : ¬ n = other := fun hh => hne hh.symm
    by_cases hp : p.1 = n
    · have hpo : ¬ p.1 = other := by rw [hp]; exact hno
      simp [hp, hpo, hno, ih]
    · by_cases hpo : p.1 = other
      · simp [hp, hpo, hne, ih]
      · simp [hp, hpo, hne, ih]

theorem ask_noop (agent : Except String AgentResult) (susp ques : String) (st : GameState)
    (hno : pyStrip ques = "" ∨ st.game_over = true ∨ st.remaining_questions ≤ 0) :
    handle_question_submit agent susp ques false st = some st := by
  unfold handle_question_submit
  rcases hno with h | h | h
  · simp [h]
  · simp [h]
  · by_cases hq : pyStrip ques = "" <;> simp [hq, h]

theorem ask_accepted (agent : Except String AgentResult) (susp ques : String) (st : GameState)
    (h : List Turn) (hq : pyStrip ques ≠ "") (hover : st.game_over = false)
    (hrq : 0 < st.remaining_questions) (hlook : lookupHist st.histories susp = some h) :
    handle_question_submit agent susp ques false st =
      some { st with
              remaining_questions := st.remaining_questions - 1,
              histories := appendHist st.histories susp
                { q := pyStrip ques, a := postprocessAnswer (call_crew_for_answer agent) } } := by
  unfold handle_question_submit
  have hrq2 : ¬ st.remaining_questions ≤ 0 := by omega
  simp [hq, hover, hrq2, hlook]

theorem ask_preserves_game_over (agent : Except String AgentResult) (susp ques : String)
    (disabled : Bool) (st st2 : GameState)
    (hst2 : handle_question_submit agent susp ques disabled st = some st2) :
    st2.game_over = st.game_over := by
  unfold handle_question_submit at hst2
  split at hst2
  · cases hst2; rfl
  · split at hst2
    · cases hst2; rfl
    · split at hst2
      · cases hst2; rfl
      · split at hst2
        · cases hst2; rfl
        · split at hst2
          · cases hst2
          · cases hst2; rfl

set_option maxRecDepth 16384 in
/-- Both fixed fallback lines contain no HTML entity, no tag and no
whitespace run, so the caller's post-processing leaves them verbatim. -/
theorem postprocess_fallback (e : String) :
    postprocessAnswer (dialogue_fallback e) = dialogue_fallback e := by
  unfold dialogue_fallback
  split
  · decide
  · decide

/-! ### Concrete session used by witnesses and the budget scenario -/

def stEx : GameState where
  remaining_questions := 10
  histories := [("Ada Koval", []), ("Ben Ortiz", [])]
  game_over := false
  accused := none
  outcome := none
  guilty_name := "Ada Koval"
  suspect_names := ["Ada Koval", "Ben Ortiz"]
  theCase := none

def agentEx : Except String AgentResult := .error ("boom")

/-- Iterated `Ask` against the concrete session, always addressing the
first suspect with the same non-blank question. -/
def askEx : Nat → GameState
  | 0 => stEx
  | n + 1 => (handle_question_submit agentEx ("Ada Koval") ("Where were you?") false (askEx n)).getD (askEx n)

/-! ### Claim theorems for the session state machine -/

set_option maxRecDepth 100000 in
/-- C2: `Ask` is a no-op (state returned unchanged) whenever the question
strips to empty, the session is over, or the budget is non-positive;
otherwise an accepted `Ask` decrements `remaining_questions` by exactly 1
and appends exactly one turn to the addressed suspect's history, leaving
every other history unchanged; `Ask` never changes `game_over`; and in the
concrete session starting at `remaining_questions = 10`, ten accepted
`Ask` calls each decrement by 1, the eleventh is a no-op, and the state
after exhaustion still has `game_over = false`. -/
theorem c2_ask_transition (agent : Except String AgentResult) (susp ques : String) (st : GameState) :
    ((pyStrip ques = "" ∨ st.game_over = true ∨ st.remaining_questions ≤ 0) →
      handle_question_submit agent susp ques false st = some st)
    ∧ (∀ h : List Turn, pyStrip ques ≠ "" → st.game_over = false → 0 < st.remaining_questions →
        lookupHist st.histories susp = some h →
        handle_question_submit agent susp ques false st =
          some { st with
                  remaining_questions := st.remaining_questions - 1,
                  histories := appendHist st.histories susp
                    { q := pyStrip ques, a := postprocessAnswer (call_crew_for_answer agent) } }
        ∧ lookupHist (appendHist st.histories susp
              { q := pyStrip ques, a := postprocessAnswer (call_crew_for_answer agent) }) susp =
            some (h ++ [{ q := pyStrip ques, a := postprocessAnswer (call_crew_for_answer agent) }])
        ∧ ∀ other : String, other ≠ susp →
            lookupHist (appendHist st.histories susp
                { q := pyStrip ques, a := postprocessAnswer (call_crew_for_answer agent) }) other =
              lookupHist st.histories other)
    ∧ (∀ st2 : GameState, handle_question_submit agent susp ques false st = some st2 →
        st2.game_over = st.game_over)
    ∧ ((askEx 10).remaining_questions = 0
       ∧ (∀ k : Fin 10, (askEx (k.val + 1)).remaining_questions = (askEx k.val).remaining_questions - 1)
       ∧ handle_question_submit agentEx ("Ada Koval") ("Where were you?") false (askEx 10) = some (askEx 10)
       ∧ (askEx 10).game_over = false) := by
  refine ⟨ask_noop agent susp ques st, ?_, fun st2 => ask_preserves_game_over agent susp ques false st st2, ?_, ?_, ?_, ?_⟩
  · intro h hq hover hrq hlook
    refine ⟨ask_accepted agent susp ques st h hq hover hrq hlook, ?_, ?_⟩
    · rw [lookupHist_appendHist_self, hlook]
      rfl
    · intro other ho
      exact lookupHist_appendHist_other st.histories susp other _ ho
  · decide
  · decide
  · decide
  · decide

set_option maxRecDepth 100000 in
/-- Witness for C2 at a concrete session: a blank question is a no-op and
a real question decrements the budget and appends the turn. -/
theorem c2_ask_transition_witness :
    handle_question_submit agentEx ("Ada Koval") ("   ") false stEx = some stEx
    ∧ handle_question_submit agentEx ("Ada Koval") ("Where were you?") false stEx =
        some { stEx with
                remaining_questions := stEx.remaining_questions - 1,
                histories := appendHist stEx.histories ("Ada Koval")
                  { q := pyStrip ("Where were you?"), a := postprocessAnswer (call_crew_for_answer agentEx) } } :=
  ⟨(c2_ask_transition agentEx ("Ada Koval") ("   ") stEx).1 (Or.inl (by decide)),
   ((c2_ask_transition agentEx ("Ada Koval") ("Where were you?") stEx).2.1 []
      (by decide) rfl (by decide) (by decide)).1⟩

/-- C3: `Accuse` on an active session records the accusation, computes
`won` by exact string equality with the session's `guilty_name`, stores
the complete outcome whose `guilty` is `guilty_name` and whose epilogue
comes from the fixed deterministic template (independent of the case
record, hence of any external data), and sets `game_over`; a second
`Accuse` after `game_over` is a silent no-op. -/
theorem c3_accuse_transition (st : GameState) (accused : String) (hover : st.game_over = false) :
    handle_accusation accused false st =
      { st with
          accused := some accused,
          outcome := some
            { won := accused == st.guilty_name, accused := accused, guilty := st.guilty_name,
              epilogue := _generate_epilogue st.theCase accused (accused == st.guilty_name) st.guilty_name },
          game_over := true }
    ∧ ((accused == st.guilty_name) = true ↔ accused = st.guilty_name)
    ∧ (∀ c1 c2 : Option Case, ∀ a g : String, ∀ w : Bool,
        _generate_epilogue c1 a w g = _generate_epilogue c2 a w g)
    ∧ (∀ st2 : GameState, ∀ a2 : String, st2.game_over = true →
        handle_accusation a2 false st2 = st2) := by
  refine ⟨?_, beq_iff_eq, fun c1 c2 a g w => rfl, ?_⟩
  · unfold handle_accusation
    simp [hover]
  · intro st2 a2 h2
    unfold handle_accusation
    simp [h2]

/-- Witness for C3: accusing the wrong suspect in the concrete session. -/
theorem c3_accuse_transition_witness :
    handle_accusation ("Ben Ortiz") false stEx =
      { stEx with
          accused := some ("Ben Ortiz"),
          outcome := some
            { won := ("Ben Ortiz" : String) == stEx.guilty_name, accused := "Ben Ortiz",
              guilty := stEx.guilty_name,
              epilogue := _generate_epilogue stEx.theCase ("Ben Ortiz")
                (("Ben Ortiz" : String) == stEx.guilty_name) stEx.guilty_name },
          game_over := true } :=
  (c3_accuse_transition stEx ("Ben Ortiz") rfl).1

/-- C5: a failing agent call never escapes `call_crew_for_answer`: an
error message containing one of the quota markers `429`,
`RESOURCE_EXHAUSTED` or `Quota exceeded` yields the fixed throttled
in-character line verbatim, and any other error yields the fixed generic
glitch line verbatim. -/
theorem c5_dialogue_fallback_selection (e : String) :
    call_crew_for_answer (.error e) =
      if containsSub ("429") e || containsSub ("RESOURCE_EXHAUSTED") e || containsSub ("Quota exceeded") e
      then throttled_line
      else glitch_line := rfl

set_option maxRecDepth 100000 in
/-- C8: when the agent call succeeds but no spoken-text field is found by
step 2 (structured task outputs) or step 3 (stringified result), the
resolver returns the stripped stringified result, unchanged when at most
400 characters and otherwise cut to exactly its first 400 characters plus
the `...` marker. -/
theorem c8_truncation_fallback (r : AgentResult)
    (h1 : spokenOfData (dialogueData r) = .ok none)
    (h2 : spokenOfData (_extract_json (some r.strRepr)) = .ok none) :
    call_crew_for_answer (.ok r) = truncate400 (pyStrip r.strRepr)
    ∧ (∀ s : String,
        (s.length ≤ 400 → truncate400 s = s)
        ∧ (400 < s.length → truncate400 s = String.mk (s.toList.take 400) ++ ("..."))) := by
  constructor
  · have hb : call_crew_body r = .ok (truncate400 (pyStrip r.strRepr)) := by
      unfold call_crew_body
      rw [h1, h2]
    have hred : call_crew_for_answer (.ok r) =
        match call_crew_body r with
        | .ok s => s
        | .error e => dialogue_fallback e := rfl
    rw [hred, hb]
  · intro s
    constructor
    · intro hle
      unfold truncate400
      rw [if_neg (by omega)]
    · intro hgt
      unfold truncate400
      rw [if_pos (by omega)]

def agentTruncEx : AgentResult where
  tasks_output := none
  raw := none
  strRepr := String.mk (List.replicate 401 'a')

set_option maxRecDepth 100000 in
/-- Witness for C8: a 401-character stringified result is cut to 400
characters plus the marker. -/
theorem c8_truncation_fallback_witness :
    call_crew_for_answer (.ok agentTruncEx) = String.mk (List.replicate 400 'a') ++ ("...") :=
  ((c8_truncation_fallback agentTruncEx (by decide) (by decide)).1).trans (by decide)

/-- C9: an accepted `Ask` whose agent call fails still consumes exactly
one question (never refunded: the decrement happens before the call and
is unconditional on its outcome) and still appends one turn whose answer
is the fixed fallback line, which the HTML post-processing leaves verbatim. -/
theorem c9_failed_turn_consumes_question (e : String) (susp ques : String) (st : GameState)
    (h : List Turn) (hq : pyStrip ques ≠ "") (hover : st.game_over = false)
    (hrq : 0 < st.remaining_questions) (hlook : lookupHist st.histories susp = some h) :
    handle_question_submit (.error e) susp ques false st =
      some { st with
              remaining_questions := st.remaining_questions - 1,
              histories := appendHist st.histories susp
                { q := pyStrip ques, a := dialogue_fallback e } }
    ∧ lookupHist (appendHist st.histories susp { q := pyStrip ques, a := dialogue_fallback e }) susp =
        some (h ++ [{ q := pyStrip ques, a := dialogue_fallback e }]) := by
  have hpp : postprocessAnswer (call_crew_for_answer (.error e)) = dialogue_fallback e :=
    postprocess_fallback e
  constructor
  · have hacc := ask_accepted (.error e) susp ques st h hq hover hrq hlook
    rw [hpp] at hacc
    exact hacc
  · rw [lookupHist_appendHist_self, hlook]
    rfl

set_option maxRecDepth 100000 in
/-- Witness for C9: a quota failure still consumes the question and logs
the throttled line. -/
theorem c9_failed_turn_consumes_question_witness :
    handle_question_submit (.error ("RESOURCE_EXHAUSTED")) ("Ada Koval") ("Any alibi?") false stEx =
      some { stEx with
              remaining_questions := stEx.remaining_questions - 1,
              histories := appendHist stEx.histories ("Ada Koval")
                { q := pyStrip ("Any alibi?"), a := dialogue_fallback ("RESOURCE_EXHAUSTED") } }
    ∧ lookupHist (appendHist stEx.histories ("Ada Koval")
          { q := pyStrip ("Any alibi?"), a := dialogue_fallback ("RESOURCE_EXHAUSTED") }) ("Ada Koval") =
        some ([] ++ [{ q := pyStrip ("Any alibi?"), a := dialogue_fallback ("RESOURCE_EXHAUSTED") }]) :=
  c9_failed_turn_consumes_question ("RESOURCE_EXHAUSTED") ("Ada Koval") ("Any alibi?") stEx []
    (by decide) rfl (by decide) (by decide)

/-- C10: `Accuse` performs no roster-membership check: any string closes
an active case with a complete outcome whose `won` is the string equality
with `guilty_name`; in particular a name outside the roster (while the
true culprit is on the roster) always loses and still closes the case. -/
theorem c10_accuse_no_roster_check (st : GameState) (accused : String) (hover : st.game_over = false) :
    (handle_accusation accused false st).game_over = true
    ∧ (handle_accusation accused false st).outcome =
        some { won := accused == st.guilty_name, accused := accused, guilty := st.guilty_name,
               epilogue := _generate_epilogue st.theCase accused (accused == st.guilty_name) st.guilty_name }
    ∧ (accused ∉ st.suspect_names → st.guilty_name ∈ st.suspect_names →
        (handle_accusation accused false st).outcome.map Outcome.won = some false) := by
  have hmain : handle_accusation accused false st =
      { st with
          accused := some accused,
          outcome := some
            { won := accused == st.guilty_name, accused := accused, guilty := st.guilty_name,
              epilogue := _generate_epilogue st.theCase accused (accused == st.guilty_name) st.guilty_name },
          game_over := true } := by
    unfold handle_accusation
    simp [hover]
  refine ⟨by rw [hmain], by rw [hmain], ?_⟩
  intro hnot hmem
  have hne : accused ≠ st.guilty_name := by
    intro hh
    exact hnot (hh ▸ hmem)
  have hbf : (accused == st.guilty_name) = false := beq_eq_false_iff_ne.mpr hne
  rw [hmain]
  simp [hbf]

/-- Witness for C10: accusing a name outside the roster loses and closes
the case. -/
theorem c10_accuse_no_roster_check_witness :
    ((handle_accusation ("Nobody") false stEx).game_over = true)
    ∧ (handle_accusation ("Nobody") false stEx).outcome.map Outcome.won = some false :=
  ⟨(c10_accuse_no_roster_check stEx ("Nobody") rfl).1,
   (c10_accuse_no_roster_check stEx ("Nobody") rfl).2.2 (by decide) (by decide)⟩

/-! ### C1: the normalizer invariant

The source computes each normalized guilty flag as
`raw-flag OR name == guilty_name OR id == killer_id`; since Python has
`None == None`, every suspect without an `id` field is flagged guilty
whenever `killer_id` is absent, and an explicit `guilty_name` need not
match any suspect at all.  The invariant therefore fails on accepted
inputs and only holds for internally consistent characters structures.
-/

theorem toList_ofList (l : List JValue) : (JArr.ofList l).toList = l := by
  induction l with
  | nil => rfl
  | cons x xs ih => simp [JArr.ofList, JArr.toList, ih]

/-- Python `s.get(k)` on a raw suspect entry (None for non-dicts, which
the source would have rejected earlier). -/
def rawGet (s : JValue) (k : String) : JValue :=
  match s with
  | .obj skvs => (objGetLast skvs k).getD .null
  | _ => .null

def rawGetD (s : JValue) (k : String) (d : JValue) : JValue :=
  match s with
  | .obj skvs => (objGetLast skvs k).getD d
  | _ => d

def nameMatches (gname s : JValue) : Bool :=
  pyEq (rawGet s ("name")) gname

/-- The guilty flag computed by the normalization loop, as a function of
the raw suspect entry. -/
def guiltyRaw (kvs : JObj) (gname : JValue) (s : JValue) : Bool :=
  match s with
  | .obj skvs =>
    jtruthy ((objGetLast skvs ("guilty")).getD (.bool false))
    || pyEq ((objGetLast skvs ("name")).getD .null) gname
    || pyEq ((objGetLast skvs ("id")).getD .null) ((objGetLast kvs ("killer_id")).getD .null)
  | _ => false

/-- The normalized record built by the loop body for one raw suspect. -/
def mkNS (kvs : JObj) (gname : JValue) (s : JValue) : NSuspect :=
  match s with
  | .obj skvs =>
    { name := (objGetLast skvs ("name")).getD (.str ("Unknown Suspect"))
      role := (objGetLast skvs ("role")).getD (.str (""))
      personality := (objGetLast skvs ("personality")).getD (.str (""))
      secret := orPy ((objGetLast skvs ("secret")).getD .null) ((objGetLast skvs ("secret_motivation")).getD (.str ("")))
      guilty := guiltyRaw kvs gname s }
  | _ => { name := .null, role := .null, personality := .null, secret := .null, guilty := false }

theorem buildSuspects_ok_map (kvs : JObj) (gname : JValue) :
    ∀ (l : List JValue) (out : List NSuspect),
      buildSuspects kvs gname l = .ok out → out = l.map (mkNS kvs gname) := by
  intro l
  induction l with
  | nil =>
    intro out h
    cases h
    rfl
  | cons s ss ih =>
    intro out h
    match s with
    | .obj skvs =>
      unfold buildSuspects at h
      cases hb : buildSuspects kvs gname ss with
      | error e => rw [hb] at h; cases h
      | ok l2 =>
        rw [hb] at h
        cases h
        simp [List.map_cons, ih l2 hb, mkNS, guiltyRaw]
    | .null => cases h
    | .bool b => cases h
    | .num n => cases h
    | .str t => cases h
    | .arr a => cases h

theorem mkNS_guilty (kvs : JObj) (gname : JValue) (s : JValue) :
    (mkNS kvs gname s).guilty = guiltyRaw kvs gname s := by
  cases s <;> rfl

theorem pyEq_null_of_truthy (g : JValue) (hg : jtruthy g = true) : pyEq .null g = false := by
  cases g <;> simp_all [pyEq, jtruthy]

def c1CexChars : JValue :=
  .obj (JObj.ofList
    [("guilty_name", .str ("A")),
     ("suspects", .arr (JArr.ofList
        [.obj (JObj.ofList [("name", .str ("A"))]),
         .obj (JObj.ofList [("name", .str ("B"))])]))])

/-- Counterexample to C1 as stated: this characters structure is accepted
by the normalizer (non-empty suspects, guilty identity resolved from the
explicit `guilty_name` field), yet both produced suspects carry
`guilty = true` — suspect `B` because its absent `id` compares equal to
the absent `killer_id` (`None == None`).  So the produced Case does not
have exactly one guilty suspect. -/
theorem c1_normalizer_invariant_counterexample :
    isRuntimeErr (normalizeCharacters (some c1CexChars)) = false
    ∧ (normalizeCharacters (some c1CexChars)).toOption.map
        (fun p => (p.1.map (fun s => s.guilty), p.2)) = some ([true, true], .str ("A")) := by
  constructor
  · decide
  · decide

set_option maxRecDepth 4096 in
/-- C1 (amended): for every characters structure accepted by the Case
Normalizer that is in addition internally consistent — exactly one raw
suspect's name equals the resolved guilty identity, every suspect whose
raw guilty flag is truthy is a name match, and every suspect whose `id`
field compares equal to the `killer_id` field (including the vacuous
absent-absent comparison) is a name match — the produced suspect list has
exactly one entry with `guilty = true`, and every guilty entry's name
equals the produced `guilty_name`. -/
theorem c1_normalizer_invariant_amended
    (kvs : JObj) (raw : List JValue) (out : List NSuspect) (gname : JValue)
    (hS : objGetLast kvs ("suspects") = some (.arr (JArr.ofList raw)))
    (hOk : normalizeCharacters (some (.obj kvs)) = .ok (out, gname))
    (hOne : (raw.filter (fun s => nameMatches gname s)).length = 1)
    (hFlag : ∀ s ∈ raw, jtruthy (rawGetD s ("guilty") (.bool false)) = true → nameMatches gname s = true)
    (hId : ∀ s ∈ raw, pyEq (rawGet s ("id")) (rawGet (.obj kvs) ("killer_id")) = true → nameMatches gname s = true) :
    (out.filter (fun s => s.guilty)).length = 1
    ∧ ∀ ns ∈ out, ns.guilty = true → pyEq ns.name gname = true := by
  -- Invert the run of the normalizer.
  simp only [normalizeCharacters] at hOk
  rw [hS] at hOk
  by_cases htr : jtruthy (JValue.obj kvs) = true
  swap
  · rw [Bool.not_eq_true] at htr
    rw [htr] at hOk
    cases hOk
  rw [htr] at hOk
  simp only [Bool.not_true, Bool.false_eq_true, if_false, toList_ofList] at hOk
  cases raw with
  | nil => simp at hOk
  | cons s0 ss =>
    replace hOk :
        (match resolve_guilty_name kvs (s0 :: ss) with
          | Except.error e => Except.error e
          | Except.ok g =>
            if jtruthy g = true then Except.map (fun l => (l, g)) (buildSuspects kvs g (s0 :: ss))
            else Except.error (GenErr.runtime msg_no_guilty)) = Except.ok (out, gname) := hOk
    cases hres : resolve_guilty_name kvs (s0 :: ss) with
    | error e => rw [hres] at hOk; cases hOk
    | ok g =>
      rw [hres] at hOk
      replace hOk :
          (if jtruthy g = true then Except.map (fun l => (l, g)) (buildSuspects kvs g (s0 :: ss))
           else Except.error (GenErr.runtime msg_no_guilty)) = Except.ok (out, gname) := hOk
      by_cases hgt : jtruthy g = true
      swap
      · rw [Bool.not_eq_true] at hgt
        rw [hgt] at hOk
        cases hOk
      rw [hgt] at hOk
      simp only [if_true] at hOk
      cases hbuild : buildSuspects kvs g (s0 :: ss) with
      | error e => rw [hbuild] at hOk; cases hOk
      | ok lout =>
        rw [hbuild] at hOk
        replace hOk : (Except.ok (lout, g) : Except GenErr (List NSuspect × JValue)) = Except.ok (out, gname) := hOk
        simp only [Except.ok.injEq, Prod.mk.injEq] at hOk
        obtain ⟨ho, hg⟩ := hOk
        subst ho
        subst hg
        -- Now the produced pair is `(lout, g)` and the build loop succeeded.
        have hmap := buildSuspects_ok_map kvs g (s0 :: ss) lout hbuild
        subst hmap
        have hmatch : ∀ skvs : JObj, JValue.obj skvs ∈ s0 :: ss →
            guiltyRaw kvs g (.obj skvs) = true → nameMatches g (.obj skvs) = true := by
          intro skvs hs hgr
          have h3 : (jtruthy ((objGetLast skvs ("guilty")).getD (.bool false)) = true
              ∨ pyEq ((objGetLast skvs ("name")).getD .null) g = true)
              ∨ pyEq ((objGetLast skvs ("id")).getD .null) ((objGetLast kvs ("killer_id")).getD .null) = true := by
            simpa [guiltyRaw] using hgr
          rcases h3 with (hflag | hn) | hid
          · exact hFlag _ hs (by simpa [rawGetD] using hflag)
          · simpa [nameMatches, rawGet] using hn
          · exact hId _ hs (by simpa [rawGet] using hid)
        constructor
        · -- Guilty flags coincide with name matches under consistency.
          have hfc : ∀ s ∈ s0 :: ss, (mkNS kvs g s).guilty = nameMatches g s := by
            intro s hs
            rw [mkNS_guilty]
            rcases s with _ | b | n | t | a | skvs
            · simp [guiltyRaw, nameMatches, rawGet, pyEq_null_of_truthy g hgt]
            · simp [guiltyRaw, nameMatches, rawGet, pyEq_null_of_truthy g hgt]
            · simp [guiltyRaw, nameMatches, rawGet, pyEq_null_of_truthy g hgt]
            · simp [guiltyRaw, nameMatches, rawGet, pyEq_null_of_truthy g hgt]
            · simp [guiltyRaw, nameMatches, rawGet, pyEq_null_of_truthy g hgt]
            · rw [Bool.eq_iff_iff]
              constructor
              · exact hmatch skvs hs
              · intro hname
                have hpe : pyEq ((objGetLast skvs ("name")).getD .null) g = true := by
                  simpa [nameMatches, rawGet] using hname
                simp [guiltyRaw, hpe]
          calc (((s0 :: ss).map (mkNS kvs g)).filter (fun s => s.guilty)).length
              = (((s0 :: ss).filter (fun x => (mkNS kvs g x).guilty)).map (mkNS kvs g)).length := by
                rw [List.filter_map]
                rfl
            _ = ((s0 :: ss).filter (fun x => (mkNS kvs g x).guilty)).length := by rw [List.length_map]
            _ = ((s0 :: ss).filter (fun x => nameMatches g x)).length := by
                rw [List.filter_congr]
                intro s hs
                exact hfc s hs
            _ = 1 := hOne
        · intro ns hns hg
          rcases List.mem_map.mp hns with ⟨s, hs, hmk⟩
          subst hmk
          rcases s with _ | b | n | t | a | skvs
          · simp [mkNS] at hg
          · simp [mkNS] at hg
          · simp [mkNS] at hg
          · simp [mkNS] at hg
          · simp [mkNS] at hg
          · have hgr : guiltyRaw kvs g (.obj skvs) = true := by
              simpa [mkNS_guilty] using hg
            have hname := hmatch skvs hs hgr
            have hpe : pyEq ((objGetLast skvs ("name")).getD .null) g = true := by
              simpa [nameMatches, rawGet] using hname
            cases hn : objGetLast skvs ("name") with
            | some n =>
              rw [hn] at hpe
              simp only [Option.getD_some] at hpe
              simpa [mkNS, hn] using hpe
            | none =>
              rw [hn] at hpe
              simp only [Option.getD_none] at hpe
              rw [pyEq_null_of_truthy g hgt] at hpe
              cases hpe

def c1WitSuspA : JValue := .obj (JObj.ofList [("name", .str ("A")), ("id", .str ("k1"))])

def c1WitSuspB : JValue := .obj (JObj.ofList [("name", .str ("B")), ("id", .str ("k2"))])

def c1WitKvs : JObj :=
  JObj.ofList
    [("guilty_name", .str ("A")),
     ("killer_id", .str ("k1")),
     ("suspects", .arr (JArr.ofList [c1WitSuspA, c1WitSuspB]))]

def c1WitOut : List NSuspect :=
  [{ name := .str ("A"), role := .str (""), personality := .str (""), secret := .str (""), guilty := true },
   { name := .str ("B"), role := .str (""), personality := .str (""), secret := .str (""), guilty := false }]

set_option maxRecDepth 4096 in
/-- Witness for the amended C1 on an internally consistent structure. -/
theorem c1_normalizer_invariant_amended_witness :
    ((c1WitOut.filter (fun s => s.guilty)).length = 1)
    ∧ ∀ ns ∈ c1WitOut, ns.guilty = true → pyEq ns.name (.str ("A")) = true :=
  c1_normalizer_invariant_amended c1WitKvs [c1WitSuspA, c1WitSuspB] c1WitOut (.str ("A"))
    (by decide) (by decide) (by decide) (by decide) (by decide)

/-! ### Lemmas about the string primitives used by the Extractor claims -/

theorem firstIdxOf_eq_none (c : Char) (l : List Char) (h : c ∉ l) : firstIdxOf c l = none := by
  induction l with
  | nil => rfl
  | cons x xs ih =>
    have hx : ¬ x = c := fun hh => h (hh ▸ List.mem_cons_self x xs)
    simp only [firstIdxOf, if_neg hx]
    rw [ih (fun hm => h (List.mem_cons_of_mem x hm))]
    rfl

theorem firstIdxOf_append (c : Char) (p r : List Char) (hp : c ∉ p) :
    firstIdxOf c (p ++ c :: r) = some p.length := by
  induction p with
  | nil => simp [firstIdxOf]
  | cons x xs ih =>
    have hx : ¬ x = c := fun hh => hp (hh ▸ List.mem_cons_self x xs)
    have ih2 := ih (fun hm => hp (List.mem_cons_of_mem x hm))
    simp [firstIdxOf, hx, ih2]

theorem mem_of_mem_pyStripL (c : Char) (l : List Char) (h : c ∈ pyStripL l) : c ∈ l := by
  unfold pyStripL at h
  have h1 : c ∈ (l.dropWhile isWs).reverse.dropWhile isWs := List.mem_reverse.mp h
  have h2 : c ∈ (l.dropWhile isWs).reverse := (List.dropWhile_sublist _).mem h1
  have h3 : c ∈ l.dropWhile isWs := List.mem_reverse.mp h2
  exact (List.dropWhile_sublist _).mem h3

theorem dropWhile_eq_self_of_head (l : List Char) (hhead : ∀ c, l.head? = some c → isWs c = false) :
    l.dropWhile isWs = l := by
  cases l with
  | nil => rfl
  | cons x xs =>
    have hx := hhead x rfl
    simp [List.dropWhile_cons, hx]

theorem pyStripL_eq_self (l : List Char)
    (hhead : ∀ c, l.head? = some c → isWs c = false)
    (hlast : ∀ c, l.getLast? = some c → isWs c = false) :
    pyStripL l = l := by
  unfold pyStripL
  rw [dropWhile_eq_self_of_head l hhead]
  rw [dropWhile_eq_self_of_head l.reverse (fun c hc => hlast c (by rwa [← List.head?_reverse]))]
  exact List.reverse_reverse l

theorem splitOnNl_ne_nil (l : List Char) : splitOnNl l ≠ [] := by
  cases l with
  | nil => simp [splitOnNl]
  | cons c r =>
    unfold splitOnNl
    by_cases hc : c = '\n'
    · simp [hc]
    · simp only [if_neg hc]
      cases splitOnNl r <;> simp

theorem splitOnNl_cons_nl (r : List Char) : splitOnNl ('\n' :: r) = [] :: splitOnNl r := by
  simp [splitOnNl]

theorem splitOnNl_cons_of_ne (c : Char) (r : List Char) (hc : ¬ c = '\n')
    (y : List Char) (ys : List (List Char)) (h : splitOnNl r = y :: ys) :
    splitOnNl (c :: r) = (c :: y) :: ys := by
  simp [splitOnNl, hc, h]

theorem splitOnNl_append (a b : List Char) :
    splitOnNl (a ++ '\n' :: b) = splitOnNl a ++ splitOnNl b := by
  induction a with
  | nil => simp [splitOnNl]
  | cons c r ih =>
    by_cases hc : c = '\n'
    · subst hc
      rw [List.cons_append, splitOnNl_cons_nl, splitOnNl_cons_nl, ih]
      rfl
    · obtain ⟨y, ys, hys⟩ := List.exists_cons_of_ne_nil (splitOnNl_ne_nil r)
      have h2 : splitOnNl (r ++ '\n' :: b) = y :: (ys ++ splitOnNl b) := by
        rw [ih, hys]
        rfl
      rw [List.cons_append, splitOnNl_cons_of_ne c _ hc _ _ h2,
        splitOnNl_cons_of_ne c r hc y ys hys]
      rfl

theorem splitOnNl_of_not_mem (a : List Char) (h : '\n' ∉ a) : splitOnNl a = [a] := by
  induction a with
  | nil => rfl
  | cons c r ih =>
    have hc : ¬ c = '\n' := fun hh => h (hh ▸ List.mem_cons_self c r)
    have ih2 := ih (fun hm => h (List.mem_cons_of_mem c hm))
    simp [splitOnNl, hc, ih2]

theorem joinNl_splitOnNl (l : List Char) : joinNl (splitOnNl l) = l := by
  induction l with
  | nil => rfl
  | cons c r ih =>
    obtain ⟨y, ys, hys⟩ := List.exists_cons_of_ne_nil (splitOnNl_ne_nil r)
    by_cases hc : c = '\n'
    · subst hc
      rw [splitOnNl_cons_nl, hys]
      show '\n' :: joinNl (y :: ys) = '\n' :: r
      rw [← hys, ih]
    · rw [splitOnNl_cons_of_ne c r hc y ys hys]
      cases ys with
      | nil =>
        have hr : r = y := by
          rw [← ih, hys]
          rfl
        simp [joinNl, hr]
      | cons z zs =>
        show (c :: y) ++ '\n' :: joinNl (z :: zs) = c :: r
        have hr : y ++ '\n' :: joinNl (z :: zs) = r := by
          rw [← ih, hys]
          rfl
        simp [← hr]

/-! ### C7: the Extractor is total and non-throwing -/

/-- C7: the Extractor is a total function into an optional structure: the
`None` input, the empty string, text with no open brace and no code fence
(such as the spec's `Thought: I will now respond.`) all yield the
`no structure found` result rather than an exception; totality for every
other input is by construction of the model, whose every branch ends in
`some` or `none`. -/
theorem c7_extractor_total :
    (∀ s : String, '{' ∉ s.toList → startsWithL fence3 (pyStripL s.toList) = false →
        _extract_json (some s) = none)
    ∧ _extract_json none = none
    ∧ _extract_json (some ("")) = none
    ∧ _extract_json (some ("Thought: I will now respond.")) = none := by
  refine ⟨?_, rfl, rfl, by decide⟩
  intro s hbrace hfence
  simp only [_extract_json]
  by_cases hempty : s = ""
  · rw [if_pos hempty]
  · rw [if_neg hempty, hfence]
    simp only [Bool.false_eq_true, if_false]
    unfold braceHeur
    rw [firstIdxOf_eq_none '{' (pyStripL s.toList)
      (fun hm => hbrace (mem_of_mem_pyStripL _ _ hm))]

/-- Witness for C7 on arbitrary brace-free text. -/
theorem c7_extractor_total_witness : _extract_json (some ("hello there")) = none :=
  c7_extractor_total.1 ("hello there") (by decide) (by decide)

/-! ### C6: the three extraction paths -/

def fenceJsonL : List Char := ("```json").toList

def fenceL : List Char := ("```").toList

theorem extract_plain (s : String) (mid : List Char) (v : JValue)
    (hsh : pyStripL s.toList = '{' :: (mid ++ ['}']))
    (hload : jsonLoadsL (pyStripL s.toList) = some v) :
    _extract_json (some s) = some v := by
  have hne : s ≠ "" := by
    intro h
    subst h
    simp [pyStripL] at hsh
  rw [hsh] at hload
  simp only [_extract_json]
  rw [if_neg hne, hsh]
  rw [if_neg (show ¬ startsWithL fence3 ('{' :: (mid ++ ['}'])) = true from by
    rw [show startsWithL fence3 ('{' :: (mid ++ ['}'])) = false from rfl]
    simp)]
  unfold braceHeur
  rw [show firstIdxOf '{' ('{' :: (mid ++ ['}'])) = some 0 from by simp [firstIdxOf]]
  have hlast : lastIdxOf '}' ('{' :: (mid ++ ['}'])) = some (mid.length + 1) := by
    unfold lastIdxOf
    rw [show ('{' :: (mid ++ ['}'])).reverse = '}' :: (mid.reverse ++ ['{']) from by simp]
    rw [show firstIdxOf '}' ('}' :: (mid.reverse ++ ['{'])) = some 0 from by simp [firstIdxOf]]
    show some (('{' :: (mid ++ ['}'])).length - 1 - 0) = some (mid.length + 1)
    congr 1
    simp only [List.length_append, List.length_cons, List.length_nil]
    omega
  rw [hlast]
  show (if 0 < mid.length + 1 then
      jsonLoadsL (sliceL 0 (mid.length + 1 + 1) ('{' :: (mid ++ ['}'])))
    else none) = some v
  rw [if_pos (Nat.succ_pos _)]
  rw [show sliceL 0 (mid.length + 1 + 1) ('{' :: (mid ++ ['}'])) = '{' :: (mid ++ ['}']) from ?_]
  · exact hload
  · unfold sliceL
    rw [show mid.length + 1 + 1 = ('{' :: (mid ++ ['}'])).length from by
      simp only [List.length_append, List.length_cons, List.length_nil]]
    rw [List.take_length, List.drop_zero]

theorem extract_fenced (body : List Char) :
    _extract_json (some (String.mk (fenceJsonL ++ '\n' :: (body ++ '\n' :: fenceL)))) =
      (match jsonLoadsL (pyStripL body) with
       | some v => some v
       | none => braceHeur (pyStripL body)) := by
  have hW : (String.mk (fenceJsonL ++ '\n' :: (body ++ '\n' :: fenceL))).toList =
      fenceJsonL ++ '\n' :: (body ++ '\n' :: fenceL) := rfl
  have hfjne : fenceJsonL ≠ [] := by decide
  have hne : String.mk (fenceJsonL ++ '\n' :: (body ++ '\n' :: fenceL)) ≠ "" := by
    intro h
    have h2 : fenceJsonL ++ '\n' :: (body ++ '\n' :: fenceL) = [] := congrArg String.toList h
    rcases List.append_eq_nil.mp h2 with ⟨h3, _⟩
    exact hfjne h3
  have hnlf : ('\n' :: fenceL).getLast? = some backquote := by decide
  have hlastW : (fenceJsonL ++ '\n' :: (body ++ '\n' :: fenceL)).getLast? = some backquote := by
    rw [List.getLast?_append]
    rw [show ('\n' :: (body ++ '\n' :: fenceL)) = ['\n'] ++ (body ++ '\n' :: fenceL) from rfl]
    rw [List.getLast?_append, List.getLast?_append, hnlf]
    rfl
  have hstripW : pyStripL (fenceJsonL ++ '\n' :: (body ++ '\n' :: fenceL)) =
      fenceJsonL ++ '\n' :: (body ++ '\n' :: fenceL) := by
    apply pyStripL_eq_self
    · intro c hc
      rw [show fenceJsonL ++ '\n' :: (body ++ '\n' :: fenceL) =
        backquote :: (("``json").toList ++ '\n' :: (body ++ '\n' :: fenceL)) from rfl] at hc
      simp only [List.head?_cons, Option.some.injEq] at hc
      subst hc
      decide
    · intro c hc
      rw [hlastW] at hc
      cases hc
      decide
  have hfen : startsWithL fence3 (fenceJsonL ++ '\n' :: (body ++ '\n' :: fenceL)) = true := by
    unfold startsWithL
    rw [List.isPrefixOf_iff_prefix]
    exact (show fence3 <+: fenceJsonL from by decide).trans (List.prefix_append _ _)
  simp only [_extract_json]
  rw [if_neg hne, hW, hstripW, hfen]
  simp only [if_true]
  have hsplit : pySplitlines (fenceJsonL ++ '\n' :: (body ++ '\n' :: fenceL)) =
      fenceJsonL :: (splitOnNl body ++ [fenceL]) := by
    unfold pySplitlines
    rw [if_neg (by simp [hfjne]), if_neg (by rw [hlastW]; decide)]
    rw [splitOnNl_append]
    rw [splitOnNl_append]
    rw [splitOnNl_of_not_mem fenceJsonL (by decide), splitOnNl_of_not_mem fenceL (by decide)]
    rfl
  rw [hsplit]
  have hgetlast : (splitOnNl body ++ [fenceL]).getLast? = some fenceL := by
    rw [List.getLast?_append]
    rfl
  have hL2 : (match (splitOnNl body ++ [fenceL]).getLast? with
      | some last =>
        if startsWithL fence3 last = true then (splitOnNl body ++ [fenceL]).dropLast
        else splitOnNl body ++ [fenceL]
      | none => splitOnNl body ++ [fenceL]) = splitOnNl body := by
    rw [hgetlast]
    show (if startsWithL fence3 fenceL = true then (splitOnNl body ++ [fenceL]).dropLast
      else splitOnNl body ++ [fenceL]) = splitOnNl body
    rw [if_pos (by decide)]
    rw [List.dropLast_concat]
  show (match jsonLoadsL (pyStripL (joinNl (match (splitOnNl body ++ [fenceL]).getLast? with
      | some last =>
        if startsWithL fence3 last = true then (splitOnNl body ++ [fenceL]).dropLast
        else splitOnNl body ++ [fenceL]
      | none => splitOnNl body ++ [fenceL]))) with
    | some v => some v
    | none => braceHeur (pyStripL (joinNl (match (splitOnNl body ++ [fenceL]).getLast? with
        | some last =>
          if startsWithL fence3 last = true then (splitOnNl body ++ [fenceL]).dropLast
          else splitOnNl body ++ [fenceL]
        | none => splitOnNl body ++ [fenceL])))) =
    (match jsonLoadsL (pyStripL body) with
     | some v => some v
     | none => braceHeur (pyStripL body))
  rw [hL2, joinNl_splitOnNl]

theorem extract_commentary (pre mid post : List Char) (v : JValue)
    (hpre : '{' ∉ pre) (hpost : '}' ∉ post)
    (hstrip : pyStripL (pre ++ '{' :: (mid ++ '}' :: post)) = pre ++ '{' :: (mid ++ '}' :: post))
    (hfence : startsWithL fence3 (pre ++ '{' :: (mid ++ '}' :: post)) = false)
    (hload : jsonLoadsL ('{' :: (mid ++ ['}'])) = some v) :
    _extract_json (some (String.mk (pre ++ '{' :: (mid ++ '}' :: post)))) = some v := by
  have hW : (String.mk (pre ++ '{' :: (mid ++ '}' :: post))).toList =
      pre ++ '{' :: (mid ++ '}' :: post) := rfl
  have hne : String.mk (pre ++ '{' :: (mid ++ '}' :: post)) ≠ "" := by
    intro h
    have h2 : pre ++ '{' :: (mid ++ '}' :: post) = [] := congrArg String.toList h
    rcases List.append_eq_nil.mp h2 with ⟨_, h3⟩
    cases h3
  simp only [_extract_json]
  rw [if_neg hne, hW, hstrip, hfence]
  simp only [Bool.false_eq_true, if_false]
  unfold braceHeur
  rw [firstIdxOf_append '{' pre (mid ++ '}' :: post) hpre]
  have hlast : lastIdxOf '}' (pre ++ '{' :: (mid ++ '}' :: post)) =
      some (pre.length + mid.length + 1) := by
    unfold lastIdxOf
    rw [show (pre ++ '{' :: (mid ++ '}' :: post)).reverse =
        post.reverse ++ '}' :: ((pre ++ '{' :: mid).reverse) from by
      simp [List.reverse_append]]
    rw [firstIdxOf_append '}' post.reverse _ (fun hm => hpost (List.mem_reverse.mp hm))]
    show some ((pre ++ '{' :: (mid ++ '}' :: post)).length - 1 - post.reverse.length) =
      some (pre.length + mid.length + 1)
    congr 1
    simp only [List.length_append, List.length_cons, List.length_reverse]
    omega
  rw [hlast]
  show (if pre.length < pre.length + mid.length + 1 then
      jsonLoadsL (sliceL pre.length (pre.length + mid.length + 1 + 1)
        (pre ++ '{' :: (mid ++ '}' :: post)))
    else none) = some v
  rw [if_pos (by omega)]
  rw [show sliceL pre.length (pre.length + mid.length + 1 + 1) (pre ++ '{' :: (mid ++ '}' :: post)) =
      '{' :: (mid ++ ['}']) from ?_]
  · exact hload
  · unfold sliceL
    rw [show pre ++ '{' :: (mid ++ '}' :: post) = (pre ++ ('{' :: (mid ++ ['}']))) ++ post from by
      simp]
    rw [show pre.length + mid.length + 1 + 1 = (pre ++ ('{' :: (mid ++ ['}']))).length from by
      simp only [List.length_append, List.length_cons, List.length_nil]
      omega]
    rw [List.take_left, List.drop_left]

/-- C6: the three extraction paths of `_extract_json`.  First, a string
whose stripped form is a brace-delimited JSON object that parses yields
exactly that parsed structure.  Second, a ```json fence wrapping any body
is stripped of its first and last fence lines and the body parsed.
Third, for unfenced text, everything before the first open brace and
after the last close brace is ignored and the enclosed slice parsed. -/
theorem c6_extractor_paths :
    (∀ (s : String) (mid : List Char) (v : JValue),
        pyStripL s.toList = '{' :: (mid ++ ['}']) →
        jsonLoadsL (pyStripL s.toList) = some v →
        _extract_json (some s) = some v)
    ∧ (∀ (body : List Char) (v : JValue),
        jsonLoadsL (pyStripL body) = some v →
        _extract_json (some (String.mk (fenceJsonL ++ '\n' :: (body ++ '\n' :: fenceL)))) = some v)
    ∧ (∀ (pre mid post : List Char) (v : JValue),
        '{' ∉ pre → '}' ∉ post →
        pyStripL (pre ++ '{' :: (mid ++ '}' :: post)) = pre ++ '{' :: (mid ++ '}' :: post) →
        startsWithL fence3 (pre ++ '{' :: (mid ++ '}' :: post)) = false →
        jsonLoadsL ('{' :: (mid ++ ['}'])) = some v →
        _extract_json (some (String.mk (pre ++ '{' :: (mid ++ '}' :: post)))) = some v) := by
  refine ⟨extract_plain, ?_, extract_commentary⟩
  intro body v hload
  rw [extract_fenced body, hload]

/-- Witness for C6: concrete plain, fenced and commentary-wrapped
inputs. -/
theorem c6_extractor_paths_witness :
    _extract_json (some ("\x7b\"a\": 1\x7d")) = some (.obj (JObj.ofList [("a", .num 1)]))
    ∧ _extract_json (some (String.mk (fenceJsonL ++ '\n' :: (("\x7b\"k\": true\x7d").toList ++ '\n' :: fenceL)))) =
        some (.obj (JObj.ofList [("k", .bool true)]))
    ∧ _extract_json (some (String.mk (("Note: ").toList ++ '{' :: (("\"x\": null").toList ++ '}' :: (" done").toList)))) =
        some (.obj (JObj.ofList [("x", .null)])) :=
  ⟨c6_extractor_paths.1 ("\x7b\"a\": 1\x7d") (("\"a\": 1").toList) _ (by decide) (by decide),
   c6_extractor_paths.2.1 (("\x7b\"k\": true\x7d").toList) _ (by decide),
   c6_extractor_paths.2.2 (("Note: ").toList) (("\"x\": null").toList) ((" done").toList) _
     (by decide) (by decide) (by decide) (by decide) (by decide)⟩

/-! ### C4: the fatal-error characterization of the normalizer -/

theorem isRuntimeErr_map {α β : Type} (f : α → β) (x : Except GenErr α) :
    isRuntimeErr (x.map f) = isRuntimeErr x := by
  cases x with
  | error e => cases e <;> rfl
  | ok a => rfl

theorem buildSuspects_no_runtime (kvs : JObj) (g : JValue) :
    ∀ l : List JValue, isRuntimeErr (buildSuspects kvs g l) = false := by
  intro l
  induction l with
  | nil => rfl
  | cons s ss ih =>
    cases s with
    | obj skvs =>
      unfold buildSuspects
      rw [isRuntimeErr_map]
      exact ih
    | null => rfl
    | bool b => rfl
    | num n => rfl
    | str t => rfl
    | arr a => rfl

theorem scanKiller_eq (killer g0 : JValue) : ∀ l : List JValue,
    scanKiller l killer g0 =
      (match claimScanKiller l killer with
       | .error _ => .error GenErr.attrError
       | .ok (some n) => .ok n
       | .ok none => .ok g0) := by
  intro l
  induction l with
  | nil => rfl
  | cons s ss ih =>
    cases s with
    | obj skvs =>
      simp only [scanKiller, claimScanKiller]
      by_cases hid : pyEq ((objGetLast skvs ("id")).getD .null) killer = true
      · rw [if_pos hid, if_pos hid]
      · rw [if_neg hid, if_neg hid]
        exact ih
    | null => rfl
    | bool b => rfl
    | num n => rfl
    | str t => rfl
    | arr a => rfl

theorem scanFlag_eq (g1 : JValue) : ∀ l : List JValue,
    scanFlag l g1 =
      (match claimScanFlag l with
       | .error _ => .error GenErr.attrError
       | .ok (some n) => .ok n
       | .ok none => .ok g1) := by
  intro l
  induction l with
  | nil => rfl
  | cons s ss ih =>
    cases s with
    | obj skvs =>
      simp only [scanFlag, claimScanFlag]
      by_cases hfl : (objGetLast skvs ("guilty")).getD .null = JValue.bool true
      · rw [if_pos hfl, if_pos hfl]
      · rw [if_neg hfl, if_neg hfl]
        exact ih
    | null => rfl
    | bool b => rfl
    | num n => rfl
    | str t => rfl
    | arr a => rfl

theorem resolve_eq (kvs : JObj) (l : List JValue) :
    resolve_guilty_name kvs l =
      (match claimResolve kvs l with
       | .error _ => .error GenErr.attrError
       | .ok g => .ok g) := by
  by_cases hg0 : jtruthy ((objGetLast kvs ("guilty_name")).getD .null) = true
  · simp [resolve_guilty_name, claimResolve, hg0]
  · rw [Bool.not_eq_true] at hg0
    by_cases hk : jtruthy ((objGetLast kvs ("killer_id")).getD .null) = true
    · simp only [resolve_guilty_name, claimResolve, hg0, hk, Bool.false_eq_true, if_false,
        if_true, scanKiller_eq]
      cases hck : claimScanKiller l ((objGetLast kvs ("killer_id")).getD .null) with
      | error u => rfl
      | ok r =>
        cases r with
        | some n =>
          by_cases hn : jtruthy n = true
          · simp [hn]
          · rw [Bool.not_eq_true] at hn
            simp only [hn, Bool.false_eq_true, if_false, scanFlag_eq]
            cases hcf : claimScanFlag l with
            | error u => rfl
            | ok rr => cases rr <;> rfl
        | none =>
          simp only [hg0, Bool.false_eq_true, if_false, scanFlag_eq]
          cases hcf : claimScanFlag l with
          | error u => rfl
          | ok rr => cases rr <;> rfl
    · rw [Bool.not_eq_true] at hk
      simp only [resolve_guilty_name, claimResolve, hg0, hk, Bool.false_eq_true, if_false,
        scanFlag_eq]
      cases hcf : claimScanFlag l with
      | error u => rfl
      | ok rr => cases rr <;> rfl

theorem isRuntimeErr_runtime {α : Type} (m : String) :
    isRuntimeErr (Except.error (GenErr.runtime m) : Except GenErr α) = true := rfl

theorem isRuntimeErr_typeErr {α : Type} :
    isRuntimeErr (Except.error GenErr.typeError : Except GenErr α) = false := rfl

theorem isRuntimeErr_attrErr {α : Type} :
    isRuntimeErr (Except.error GenErr.attrError : Except GenErr α) = false := rfl

theorem isRuntimeErr_isOk {α : Type} (x : α) :
    isRuntimeErr (Except.ok x : Except GenErr α) = false := rfl

theorem normalize_runtime_iff (cj : Option JValue) :
    isRuntimeErr (normalizeCharacters cj) = charsFatal cj := by
  cases cj with
  | none => rfl
  | some v =>
    cases v with
    | null => rfl
    | bool b => cases b <;> rfl
    | num n =>
      by_cases h : jtruthy (JValue.num n) = true
      · simp [normalizeCharacters, charsFatal, h, isRuntimeErr_typeErr]
      · rw [Bool.not_eq_true] at h
        simp [normalizeCharacters, charsFatal, h, isRuntimeErr_runtime]
    | str t =>
      by_cases h : jtruthy (JValue.str t) = true
      · by_cases hc : containsSub ("suspects") t = true
        · simp [normalizeCharacters, charsFatal, h, hc, isRuntimeErr_typeErr]
        · rw [Bool.not_eq_true] at hc
          simp [normalizeCharacters, charsFatal, h, hc, isRuntimeErr_runtime]
      · rw [Bool.not_eq_true] at h
        simp [normalizeCharacters, charsFatal, h, isRuntimeErr_runtime]
    | arr a =>
      by_cases h : jtruthy (JValue.arr a) = true
      · by_cases hc : (a.toList.any fun el => pyEq el (.str ("suspects"))) = true
        · simp [normalizeCharacters, charsFatal, h, hc, isRuntimeErr_typeErr]
        · rw [Bool.not_eq_true] at hc
          simp [normalizeCharacters, charsFatal, h, hc, isRuntimeErr_runtime]
      · rw [Bool.not_eq_true] at h
        simp [normalizeCharacters, charsFatal, h, isRuntimeErr_runtime]
    | obj kvs =>
      by_cases ht : jtruthy (JValue.obj kvs) = true
      swap
      · rw [Bool.not_eq_true] at ht
        simp [normalizeCharacters, charsFatal, ht, isRuntimeErr_runtime]
      simp only [normalizeCharacters, charsFatal, ht, Bool.not_true, Bool.false_eq_true, if_false]
      cases hs : objGetLast kvs ("suspects") with
      | none => rfl
      | some sv =>
        cases sv with
        | null => rfl
        | bool b => rfl
        | num n => rfl
        | str t => rfl
        | obj o => rfl
        | arr a =>
          show isRuntimeErr (match a.toList with
            | [] => Except.error (GenErr.runtime msg_bad_list)
            | s :: ss =>
              match resolve_guilty_name kvs (s :: ss) with
              | Except.error e => Except.error e
              | Except.ok g =>
                if jtruthy g = true then Except.map (fun l => (l, g)) (buildSuspects kvs g (s :: ss))
                else Except.error (GenErr.runtime msg_no_guilty)) =
            (match a.toList with
             | [] => true
             | s :: ss =>
               match claimResolve kvs (s :: ss) with
               | .ok g => !jtruthy g
               | .error _ => false)
          cases ha : a.toList with
          | nil => rfl
          | cons s0 ss =>
            show isRuntimeErr (match resolve_guilty_name kvs (s0 :: ss) with
              | Except.error e => Except.error e
              | Except.ok g =>
                if jtruthy g = true then Except.map (fun l => (l, g)) (buildSuspects kvs g (s0 :: ss))
                else Except.error (GenErr.runtime msg_no_guilty)) =
              (match claimResolve kvs (s0 :: ss) with
               | .ok g => !jtruthy g
               | .error _ => false)
            rw [resolve_eq]
            cases hcr : claimResolve kvs (s0 :: ss) with
            | error u => rfl
            | ok g =>
              show isRuntimeErr (if jtruthy g = true
                  then Except.map (fun l => (l, g)) (buildSuspects kvs g (s0 :: ss))
                  else Except.error (GenErr.runtime msg_no_guilty)) = !jtruthy g
              by_cases hg : jtruthy g = true
              · rw [if_pos hg, hg, isRuntimeErr_map]
                rw [buildSuspects_no_runtime]
                rfl
              · rw [Bool.not_eq_true] at hg
                rw [if_neg (by rw [hg]; simp), hg]
                rfl

/-- C4: the Case Normalizer raises a generation error (`RuntimeError`)
exactly when the characters structure is fatal per the claim: suspects
missing, not a list, or empty, or no guilty identity resolvable by the
ordered strategies (explicit `guilty_name`, suspect matching a truthy
`killer_id`, suspect flagged `guilty = True`); and the failure behaviour
is completely independent of the scene structure — every scene-derivation
miss only falls back to defaults, never to an error. -/
theorem c4_normalizer_fatal_iff :
    ∀ (scene : Option SceneBlueprint) (characters_json : Option JValue),
      isRuntimeErr (generate_case_with_crew scene characters_json) = charsFatal characters_json
      ∧ errOf (generate_case_with_crew scene characters_json) =
          errOf (generate_case_with_crew none characters_json) := by
  intro scene cj
  constructor
  · have hgen : isRuntimeErr (generate_case_with_crew scene cj) =
        isRuntimeErr (normalizeCharacters cj) := by
      unfold generate_case_with_crew
      cases h : normalizeCharacters cj with
      | error e => cases e <;> rfl
      | ok p => rfl
    rw [hgen, normalize_runtime_iff]
  · unfold generate_case_with_crew
    cases h : normalizeCharacters cj with
    | error e => rfl
    | ok p => rfl

end Cluedo
